import Mathlib

/-!
Verification development for the `casino_simulator` repository
(`src/casino_simulator.py`), a Monte Carlo simulator of a Martingale-style
betting strategy on a fair two-colour (black/red) game.

Shallow embedding conventions:
* money and the payout rate are rationals (`ℚ`);
* the global pseudo-random stream behind `np.random.choice(["black", "red"])`
  is modelled as an explicit `List Color` threaded through every call, each
  sample consuming the head of the stream;
* Python runtime errors are modelled with `Except SimErr`:
  `UnboundLocalError` (reading the loop variable `color` when the `for` body
  never ran) and `ZeroDivisionError` (loss-fraction over zero gamers);
  `outOfRandomness` is an artefact of the finite stream, marking runs whose
  stream is too short (the real program's stream is unbounded);
* the mutable attribute `self.current_money` is modelled as explicit loop
  state.
-/

/-- The two colours of `np.random.choice(["black", "red"])`. -/
inductive Color where
  | black
  | red
deriving DecidableEq

/-- Python runtime errors reachable in the embedded code, plus the
stream-exhaustion artefact of the finite embedding of the RNG. -/
inductive SimErr where
  | unboundLocal
  | divByZero
  | outOfRandomness
deriving DecidableEq

/-- The `CasinoSimulator` object state set by `__init__`
(`casino_simulator.py` lines 21-35).  The attribute `current_money` is
initialised to `start_money` and only ever used as per-session loop state, so
it is carried explicitly by the session functions instead of being a field. -/
structure CasinoSimulator where
  chosen_color : Color
  n_games : Nat
  start_money : ℚ
  rate : ℚ
  first_game_money : ℚ
deriving DecidableEq

/-- `CasinoSimulator.__init__` (lines 21-35).  The result type `Except`
leaves room for a construction-time validation error; the Python constructor
merely stores the five parameters, so the embedding always succeeds. -/
def CasinoSimulator.init (n_games : Nat) (chosen_color : Color)
    (start_money rate first_game_money : ℚ) : Except SimErr CasinoSimulator :=
  .ok { chosen_color := chosen_color, n_games := n_games,
        start_money := start_money, rate := rate,
        first_game_money := first_game_money }

/-- `CasinoSimulator.one_bet` (lines 53-70): on a loss subtract the stake from
`won_money` and multiply the stake by `rate`; on a win add the stake and reset
it to `first_game_money`; return `(start_money + won_money, next stake)`. -/
def CasinoSimulator.one_bet (sim : CasinoSimulator) (color : Color)
    (won_money one_game_money : ℚ) : ℚ × ℚ :=
  if color ≠ sim.chosen_color then
    let won_money := won_money - one_game_money
    let one_game_money := one_game_money * sim.rate
    (sim.start_money + won_money, one_game_money)
  else
    let won_money := won_money + one_game_money
    let one_game_money := sim.first_game_money
    (sim.start_money + won_money, one_game_money)

/-- Result of the fixed `for i in range(self._n_games)` loop of
`single_game_simulation` (lines 82-87): either the loop returned `0` early
because `current_money` went negative (`ruin`, carrying the remaining
stream), or it finished, carrying the final `current_money`, the next stake
`one_game_money`, the stake passed to the last `one_bet` call (a ghost
observation used only in theorem statements), the last sampled `color`
(`none` when the body never ran, i.e. the variable is unbound), and the
remaining stream.  `noRandom` marks stream exhaustion. -/
inductive FixedOut where
  | ruin (s : List Color)
  | done (current bet lastBet : ℚ) (lastColor : Option Color) (s : List Color)
  | noRandom

/-- The fixed-phase loop of `single_game_simulation` (lines 82-87): each
iteration samples a colour from the stream, calls `one_bet` with the
never-updated `won_money`, and returns ruin as soon as `current_money < 0`. -/
def fixedLoop (sim : CasinoSimulator) (won_money : ℚ) :
    Nat → ℚ → ℚ → ℚ → Option Color → List Color → FixedOut
  | 0, current, bet, lastBet, lastColor, s => .done current bet lastBet lastColor s
  | _ + 1, _, _, _, _, [] => .noRandom
  | n + 1, _, bet, _, _, c :: s =>
    let r := sim.one_bet c won_money bet
    if r.1 < 0 then .ruin s
    else fixedLoop sim won_money n r.1 r.2 bet (some c) s

/-- The `while color != self.chosen_color` loop of `single_game_simulation`
(lines 90-92): while the current colour is a loss, sample a new colour and
call `one_bet` (again with the never-updated `won_money`); no ruin check.
Returns the final `current_money`, the stake passed to the last executed
`one_bet` call (ghost observation, seeded with the caller's last stake), and
the remaining stream; `none` on stream exhaustion. -/
def extLoop (sim : CasinoSimulator) (won_money : ℚ) :
    List Color → Color → ℚ → ℚ → ℚ → Option (ℚ × ℚ × List Color)
  | s, color, current, bet, wb =>
    if color = sim.chosen_color then some (current, wb, s)
    else
      match s with
      | [] => none
      | c :: s2 =>
        extLoop sim won_money s2 c (sim.one_bet c won_money bet).1
          (sim.one_bet c won_money bet).2 bet

/-- `CasinoSimulator.single_game_simulation` (lines 72-94): set
`won_money = 0`, `current_money = start_money`, stake `first_game_money`;
run the fixed loop; on ruin return `0`; then evaluate
`color != self.chosen_color and play_till_win` — if the loop body never ran,
reading `color` raises `UnboundLocalError` (before `play_till_win` is looked
at); if the last colour was a loss and `play_till_win` holds, run the
play-till-win loop; finally return `current_money` with the rest of the
stream. -/
def single_game_simulation (sim : CasinoSimulator) (play_till_win : Bool)
    (s : List Color) : Except SimErr (ℚ × List Color) :=
  let won_money : ℚ := 0
  match fixedLoop sim won_money sim.n_games sim.start_money
      sim.first_game_money sim.first_game_money none s with
  | .ruin s1 => .ok (0, s1)
  | .noRandom => .error .outOfRandomness
  | .done current bet lastBet lastColor s1 =>
    match lastColor with
    | none => .error .unboundLocal
    | some color =>
      if color ≠ sim.chosen_color ∧ play_till_win = true then
        match extLoop sim won_money s1 color current bet lastBet with
        | some (m, _, s2) => .ok (m, s2)
        | none => .error .outOfRandomness
      else .ok (current, s1)

/-- The `for i in range(n_gamers)` loop of `game_simulation` (lines 102-104):
run the sessions in order, collecting the raw returned bankrolls. -/
def runSessions (sim : CasinoSimulator) (play_till_win : Bool) :
    Nat → List Color → Except SimErr (List ℚ × List Color)
  | 0, s => .ok ([], s)
  | n + 1, s =>
    match single_game_simulation sim play_till_win s with
    | .error e => .error e
    | .ok (m, s1) =>
      match runSessions sim play_till_win n s1 with
      | .error e => .error e
      | .ok (l, s2) => .ok (m :: l, s2)

/-- `CasinoSimulator.game_simulation` (lines 96-106): run `n_gamers`
sessions and subtract `start_money` from every entry
(`pd.Series(won_money) - self._start_money`). -/
def game_simulation (sim : CasinoSimulator) (n_gamers : Nat)
    (play_till_win : Bool) (s : List Color) :
    Except SimErr (List ℚ × List Color) :=
  match runSessions sim play_till_win n_gamers s with
  | .error e => .error e
  | .ok (l, s1) => .ok (l.map (fun x => x - sim.start_money), s1)

/-- `CasinoSimulator.loose_chance` (lines 108-118): run a fresh
`game_simulation` and divide the number of strictly negative entries by the
number of entries; with zero entries Python raises `ZeroDivisionError`. -/
def loose_chance (sim : CasinoSimulator) (n_gamers : Nat)
    (play_till_win : Bool) (s : List Color) :
    Except SimErr (ℚ × List Color) :=
  match game_simulation sim n_gamers play_till_win s with
  | .error e => .error e
  | .ok (l, s1) =>
    if l.length = 0 then .error .divByZero
    else .ok (((l.filter (fun x => x < 0)).length : ℚ) / (l.length : ℚ), s1)

/-- The stream state after `i` completed sessions, used to name "the `i`-th
player session" in theorem statements. -/
def streamAfter (sim : CasinoSimulator) (play_till_win : Bool) :
    Nat → List Color → Except SimErr (List Color)
  | 0, s => .ok s
  | i + 1, s =>
    match single_game_simulation sim play_till_win s with
    | .error e => .error e
    | .ok (_, s1) => streamAfter sim play_till_win i s1

/-- One row of `full_simulation`'s statistics table: the scenario label
`f"n_games_{n_games}_first_money_{first_game_money}"` is represented by the
pair of its parameters, `outcomes` is the scenario's `game_simulation` result
(net, i.e. final bankroll minus `start_money`), and `loosers_perc` the value
appended to `loose_chance` (line 143-144). -/
structure ScenRow where
  n_games : Nat
  first_game_money : ℚ
  outcomes : List ℚ
  loosers_perc : ℚ
deriving DecidableEq

/-- `itertools.product(n_games_opt, first_game_money_opt)` (line 135). -/
def optProduct (n_games_opt : List Nat) (first_game_money_opt : List ℚ) :
    List (Nat × ℚ) :=
  n_games_opt.flatMap fun n => first_game_money_opt.map fun f => (n, f)

/-- The scenario loop of `full_simulation` (lines 135-144), in iteration
order: for each `(n_games, first_game_money)` option construct the
`CasinoSimulator`, run `game_simulation` with the sweep's `play_till_win`,
then run `loose_chance` with the literal `play_till_win=True` of line 143 (a
second, independent population simulation consuming fresh stream entries). -/
def fullSimRows (n_gamers : Nat) (chosen_color : Color)
    (start_money rate : ℚ) (play_till_win : Bool) :
    List (Nat × ℚ) → List Color → Except SimErr (List ScenRow × List Color)
  | [], s => .ok ([], s)
  | (n_games, first_money) :: opts, s =>
    match CasinoSimulator.init n_games chosen_color start_money rate
        first_money with
    | .error e => .error e
    | .ok casino =>
      match game_simulation casino n_gamers play_till_win s with
      | .error e => .error e
      | .ok (result, s1) =>
        match loose_chance casino n_gamers true s1 with
        | .error e => .error e
        | .ok (loosers_perc, s2) =>
          match fullSimRows n_gamers chosen_color start_money rate
              play_till_win opts s2 with
          | .error e => .error e
          | .ok (rows, s3) =>
            .ok (⟨n_games, first_money, result, loosers_perc⟩ :: rows, s3)

/-- The `50%` column of `df.describe(...)` (line 146): numpy's linear
interpolation at quantile `0.5` over a sorted sample, i.e. the middle element
for odd length and the mean of the two middle elements for even length. -/
def median (l : List ℚ) : ℚ :=
  let s := List.insertionSort (· ≤ ·) l
  if s.length % 2 = 1 then s.getD (s.length / 2) 0
  else (s.getD (s.length / 2 - 1) 0 + s.getD (s.length / 2) 0) / 2

/-- Row order of `stat_df.sort_values("50%")` (line 148): ascending median
of the scenario's outcomes. -/
def rowLe (a b : ScenRow) : Prop := median a.outcomes ≤ median b.outcomes

instance : DecidableRel rowLe := fun a b =>
  inferInstanceAs (Decidable (median a.outcomes ≤ median b.outcomes))

instance : IsTotal ScenRow rowLe := ⟨fun _ _ => le_total _ _⟩

instance : IsTrans ScenRow rowLe := ⟨fun _ _ _ => le_trans⟩

/-- The statistics table built by `full_simulation` (lines 121-151, the
in-scope core): the scenario rows over the Cartesian product of the options,
sorted by the `50%` (median) column ascending, paired with the remaining
stream.  Export to Excel, printing and histogram plotting are out-of-scope
I/O glue. -/
def full_simulation (n_gamers : Nat) (chosen_color : Color)
    (n_games_opt : List Nat) (first_game_money_opt : List ℚ)
    (start_money rate : ℚ) (play_till_win : Bool) (s : List Color) :
    Except SimErr (List ScenRow × List Color) :=
  match fullSimRows n_gamers chosen_color start_money rate play_till_win
      (optProduct n_games_opt first_game_money_opt) s with
  | .error e => .error e
  | .ok (rows, s1) => .ok (rows.insertionSort rowLe, s1)

/-! ## Helper lemmas and concrete configurations -/

/-- Rewriting helper: the two colours are distinct. -/
theorem red_eq_black : (Color.red = Color.black) = False := by simp

/-- Rewriting helper: the two colours are distinct. -/
theorem black_eq_red : (Color.black = Color.red) = False := by simp

/-- `one_bet` on a losing colour. -/
theorem one_bet_lose (sim : CasinoSimulator) {c : Color} (h : c ≠ sim.chosen_color)
    (won bet : ℚ) :
    sim.one_bet c won bet = (sim.start_money + (won - bet), bet * sim.rate) := by
  simp [CasinoSimulator.one_bet, h]

/-- `one_bet` on a winning colour. -/
theorem one_bet_win (sim : CasinoSimulator) {c : Color} (h : c = sim.chosen_color)
    (won bet : ℚ) :
    sim.one_bet c won bet = (sim.start_money + (won + bet), sim.first_game_money) := by
  simp [CasinoSimulator.one_bet, h]

/-- The spec's walkthrough configuration: `rate = 2`, bet on black, start
money 1000, first stake 20, 4 rounds. -/
def sim1 : CasinoSimulator := ⟨.black, 4, 1000, 2, 20⟩

/-- A one-round variant of `sim1`. -/
def simW : CasinoSimulator := ⟨.black, 1, 1000, 2, 20⟩

/-- A small-bankroll configuration: one round, start money 30, first
stake 20, `rate = 2`. -/
def sim3 : CasinoSimulator := ⟨.black, 1, 30, 2, 20⟩

/-! ## Claim theorems -/

/-- Claim C1 (code_bug evidence): on the forced outcome sequence
`[red, red, red, black]`, the configuration `sim1` of the spec walkthrough
returns a final bankroll of 1160, not the 1020 the specification derives;
the round-2 call `one_bet red 0 40` shows why: `won_money` is still `0`, so
the round-2 bankroll is 960 (net `-40`), not the accumulated net `-60`. -/
theorem forced_sequence_returns_1160 :
    single_game_simulation sim1 true [.red, .red, .red, .black] = .ok (1160, []) ∧
    sim1.one_bet .red 0 40 = (960, 80) ∧
    (1160 : ℚ) ≠ 1020 ∧ (960 : ℚ) - 1000 ≠ -60 := by
  refine ⟨?_, ?_, by norm_num, by norm_num⟩
  · norm_num [single_game_simulation, fixedLoop, extLoop, CasinoSimulator.one_bet, sim1,
      red_eq_black, black_eq_red]
  · norm_num [CasinoSimulator.one_bet, sim1, red_eq_black]

/-- Claim C2 counterexample: `one_bet` does not return the pair
`(newNetWinnings, nextBetSize)`: with start money 1000, a losing first bet of
20 returns first component 980 (the current bankroll), not the claimed
net winnings `0 - 20 = -20`. -/
theorem one_bet_returns_bankroll_cex :
    sim1.one_bet .red 0 20 = (980, 40) ∧ (980 : ℚ) ≠ 0 - 20 := by
  constructor
  · norm_num [CasinoSimulator.one_bet, sim1, red_eq_black]
  · norm_num

/-- Claim C2 amended: for every colour, net winnings, stake and every
configuration with `rate ≥ 1` and `first_game_money > 0`, `one_bet` returns
`(start_money + newNetWinnings, nextBetSize)` where on a loss
`newNetWinnings = won - bet` and `nextBetSize = bet * rate`, and on a win
`newNetWinnings = won + bet` and `nextBetSize = first_game_money`. -/
theorem one_bet_spec (sim : CasinoSimulator) (color : Color) (won bet : ℚ)
    (hr : 1 ≤ sim.rate) (hf : 0 < sim.first_game_money) :
    (color ≠ sim.chosen_color →
      sim.one_bet color won bet = (sim.start_money + (won - bet), bet * sim.rate)) ∧
    (color = sim.chosen_color →
      sim.one_bet color won bet = (sim.start_money + (won + bet), sim.first_game_money)) :=
  ⟨fun h => one_bet_lose sim h won bet, fun h => one_bet_win sim h won bet⟩

/-- Witness for `one_bet_spec` at a concrete losing and winning input. -/
theorem one_bet_spec_witness :
    sim1.one_bet .red 0 20 = (1000 + (0 - 20), 20 * 2) ∧
    sim1.one_bet .black 0 20 = (1000 + (0 + 20), 20) :=
  ⟨(one_bet_spec sim1 .red 0 20 (by norm_num [sim1]) (by norm_num [sim1])).1
      (by simp [sim1]),
    (one_bet_spec sim1 .black 0 20 (by norm_num [sim1]) (by norm_num [sim1])).2
      (by simp [sim1])⟩

/-- Claim C7 counterexample: the constructor accepts a configuration with
`n_games = 0`, `rate = 1/2 < 1` and `first_game_money = -5 ≤ 0` without any
validation error, and a player count of `0` is not rejected anywhere at
construction time: it surfaces later as the `ZeroDivisionError` of
`loose_chance`. -/
theorem init_accepts_invalid_cex :
    CasinoSimulator.init 0 .black 1000 (1/2) (-5)
      = .ok ⟨.black, 0, 1000, 1/2, -5⟩ ∧
    loose_chance ⟨.black, 10, 1000, 2, 20⟩ 0 true [] = .error .divByZero := by
  constructor
  · rfl
  · rfl

/-- Claim C7 amended: `__init__` performs no validation at all — every
parameter combination is accepted — and a zero player count is never
rejected at configuration time; it is deferred to `loose_chance`, where the
loss fraction divides by the number of entries and raises
`ZeroDivisionError`. -/
theorem init_no_validation :
    (∀ (n_games : Nat) (chosen : Color) (start rate first : ℚ),
      CasinoSimulator.init n_games chosen start rate first
        = .ok ⟨chosen, n_games, start, rate, first⟩) ∧
    (∀ (sim : CasinoSimulator) (play_till_win : Bool) (s : List Color),
      loose_chance sim 0 play_till_win s = .error .divByZero) := by
  constructor
  · intro n_games chosen start rate first
    rfl
  · intro sim play_till_win s
    rfl

/-- Claim C10: with `n_games = 0` the fixed `for` loop body never runs, so
evaluating `color != self.chosen_color` on line 89 reads an unbound local
variable and the session raises instead of returning, for either value of
`play_till_win`. -/
theorem zero_rounds_unbound_local (sim : CasinoSimulator) (play_till_win : Bool)
    (s : List Color) (h : sim.n_games = 0) :
    single_game_simulation sim play_till_win s = .error .unboundLocal := by
  simp [single_game_simulation, h, fixedLoop]

/-- Witness for `zero_rounds_unbound_local` at a concrete configuration. -/
theorem zero_rounds_unbound_local_witness :
    single_game_simulation ⟨.black, 0, 1000, 2, 20⟩ false [.red, .black]
      = .error .unboundLocal :=
  zero_rounds_unbound_local ⟨.black, 0, 1000, 2, 20⟩ false [.red, .black] rfl

/-! ## Loop invariants -/

/-- The stake stays positive through `one_bet` when `first_game_money > 0`
and `rate ≥ 1`. -/
theorem one_bet_stake_pos (sim : CasinoSimulator) (hf : 0 < sim.first_game_money)
    (hr : 1 ≤ sim.rate) (c : Color) (won bet : ℚ) (hb : 0 < bet) :
    0 < (sim.one_bet c won bet).2 := by
  by_cases hcc : c = sim.chosen_color
  · rw [one_bet_win sim hcc]
    exact hf
  · rw [one_bet_lose sim hcc]
    exact mul_pos hb (lt_of_lt_of_le one_pos hr)

/-- If the fixed loop finishes without ruin, the final bankroll is
nonnegative (the in-loop check guarantees it) and the next stake positive. -/
theorem fixedLoop_nonneg (sim : CasinoSimulator) (hf : 0 < sim.first_game_money)
    (hr : 1 ≤ sim.rate) :
    ∀ (n : Nat) (s : List Color) (current bet lastBet : ℚ) (lastColor : Option Color)
      (current2 bet2 lastBet2 : ℚ) (lastColor2 : Option Color) (s2 : List Color),
      0 ≤ current → 0 < bet →
      fixedLoop sim 0 n current bet lastBet lastColor s
        = .done current2 bet2 lastBet2 lastColor2 s2 →
      0 ≤ current2 ∧ 0 < bet2 := by
  intro n
  induction n with
  | zero =>
    intro s current bet lastBet lastColor current2 bet2 lastBet2 lastColor2 s2 hc hb h
    simp only [fixedLoop, FixedOut.done.injEq] at h
    obtain ⟨rfl, rfl, rfl, rfl, rfl⟩ := h
    exact ⟨hc, hb⟩
  | succ n ih =>
    intro s
    cases s with
    | nil =>
      intro current bet lastBet lastColor current2 bet2 lastBet2 lastColor2 s2 hc hb h
      simp [fixedLoop] at h
    | cons c s =>
      intro current bet lastBet lastColor current2 bet2 lastBet2 lastColor2 s2 hc hb h
      rw [fixedLoop] at h
      by_cases hlt : (sim.one_bet c 0 bet).1 < 0
      · simp [hlt] at h
      · simp only [hlt, if_false] at h
        exact ih s _ _ bet (some c) current2 bet2 lastBet2 lastColor2 s2
          (not_lt.1 hlt) (one_bet_stake_pos sim hf hr c 0 bet hb) h

/-- If the play-till-win loop returns, its result is nonnegative: the last
executed bet is necessarily a win, returning `start_money + stake`. -/
theorem extLoop_nonneg (sim : CasinoSimulator) (hs : 0 ≤ sim.start_money)
    (hf : 0 < sim.first_game_money) (hr : 1 ≤ sim.rate) :
    ∀ (s : List Color) (color : Color) (current bet wb m w : ℚ) (s2 : List Color),
      0 < bet → (color = sim.chosen_color → 0 ≤ current) →
      extLoop sim 0 s color current bet wb = some (m, w, s2) → 0 ≤ m := by
  intro s
  induction s with
  | nil =>
    intro color current bet wb m w s2 hb hcw h
    rw [extLoop] at h
    by_cases hc : color = sim.chosen_color
    · simp only [hc, if_true, Option.some.injEq, Prod.mk.injEq] at h
      obtain ⟨rfl, rfl, rfl⟩ := h
      exact hcw hc
    · simp [hc] at h
  | cons c s ih =>
    intro color current bet wb m w s2 hb hcw h
    rw [extLoop] at h
    by_cases hc : color = sim.chosen_color
    · simp only [hc, if_true, Option.some.injEq, Prod.mk.injEq] at h
      obtain ⟨rfl, rfl, rfl⟩ := h
      exact hcw hc
    · simp only [hc, if_false] at h
      refine ih c _ _ bet m w s2
        (one_bet_stake_pos sim hf hr c 0 bet hb) ?_ h
      intro hcc
      rw [one_bet_win sim hcc]
      have : (0 : ℚ) ≤ sim.start_money + (0 + bet) := by
        rw [zero_add]
        exact add_nonneg hs (le_of_lt hb)
      exact this

/-- Unfolding of `single_game_simulation` when the fixed loop ends in ruin. -/
theorem single_game_of_ruin (sim : CasinoSimulator) (play_till_win : Bool)
    (s s1 : List Color)
    (hfix : fixedLoop sim 0 sim.n_games sim.start_money sim.first_game_money
      sim.first_game_money none s = .ruin s1) :
    single_game_simulation sim play_till_win s = .ok (0, s1) := by
  simp [single_game_simulation, hfix]

/-- Unfolding of `single_game_simulation` when the fixed loop finishes with
a last sampled colour. -/
theorem single_game_of_done (sim : CasinoSimulator) (play_till_win : Bool)
    (s : List Color) (current bet lastBet : ℚ) (color : Color) (s1 : List Color)
    (hfix : fixedLoop sim 0 sim.n_games sim.start_money sim.first_game_money
      sim.first_game_money none s = .done current bet lastBet (some color) s1) :
    single_game_simulation sim play_till_win s =
      if color ≠ sim.chosen_color ∧ play_till_win = true then
        match extLoop sim 0 s1 color current bet lastBet with
        | some (m, _, s2) => .ok (m, s2)
        | none => .error .outOfRandomness
      else .ok (current, s1) := by
  simp [single_game_simulation, hfix]

/-- Claim C4: for every outcome stream and every valid configuration
(`start_money ≥ 0`, `first_game_money > 0`, `rate ≥ 1`, `n_games ≥ 1`),
a session that returns a value returns a nonnegative value, and a session
that hits the ruin condition in the fixed phase returns exactly `0`. -/
theorem session_result_nonneg (sim : CasinoSimulator) (play_till_win : Bool)
    (s : List Color) (hs : 0 ≤ sim.start_money) (hf : 0 < sim.first_game_money)
    (hr : 1 ≤ sim.rate) (hn : 1 ≤ sim.n_games) :
    (∀ m s2, single_game_simulation sim play_till_win s = .ok (m, s2) → 0 ≤ m) ∧
    (∀ s2, fixedLoop sim 0 sim.n_games sim.start_money sim.first_game_money
        sim.first_game_money none s = .ruin s2 →
      single_game_simulation sim play_till_win s = .ok (0, s2)) := by
  constructor
  · intro m s2 h
    cases hfix : fixedLoop sim 0 sim.n_games sim.start_money sim.first_game_money
        sim.first_game_money none s with
    | ruin s1 =>
      rw [single_game_of_ruin sim play_till_win s s1 hfix] at h
      simp only [Except.ok.injEq, Prod.mk.injEq] at h
      obtain ⟨rfl, rfl⟩ := h
      exact le_refl 0
    | noRandom =>
      simp [single_game_simulation, hfix] at h
    | done current bet lastBet lastColor s1 =>
      have hinv := fixedLoop_nonneg sim hf hr sim.n_games s sim.start_money
        sim.first_game_money sim.first_game_money none current bet lastBet lastColor s1
        hs hf hfix
      cases lastColor with
      | none => simp [single_game_simulation, hfix] at h
      | some color =>
        rw [single_game_of_done sim play_till_win s current bet lastBet color s1 hfix] at h
        by_cases hcond : color ≠ sim.chosen_color ∧ play_till_win = true
        · rw [if_pos hcond] at h
          cases hext : extLoop sim 0 s1 color current bet lastBet with
          | none =>
            rw [hext] at h
            simp at h
          | some t =>
            obtain ⟨m3, w3, s3⟩ := t
            rw [hext] at h
            simp only [Except.ok.injEq, Prod.mk.injEq] at h
            obtain ⟨rfl, rfl⟩ := h
            exact extLoop_nonneg sim hs hf hr s1 color current bet lastBet m3 w3 s3
              hinv.2 (fun _ => hinv.1) hext
        · rw [if_neg hcond] at h
          simp only [Except.ok.injEq, Prod.mk.injEq] at h
          obtain ⟨rfl, rfl⟩ := h
          exact hinv.1
  · intro s2 h
    exact single_game_of_ruin sim play_till_win s s2 h

/-- Witness for `session_result_nonneg`: the walkthrough configuration on
the all-black stream returns 1020, which the theorem bounds below by 0. -/
theorem session_result_nonneg_witness : (0 : ℚ) ≤ 1020 :=
  (session_result_nonneg sim1 true [.black, .black, .black, .black]
      (by norm_num [sim1]) (by norm_num [sim1]) (by norm_num [sim1])
      (by norm_num [sim1])).1 1020 []
    (by norm_num [single_game_simulation, fixedLoop, extLoop,
      CasinoSimulator.one_bet, sim1, red_eq_black, black_eq_red])

/-- If the fixed loop ends with a winning last colour, the final bankroll is
`start_money` plus the stake of that last round (the `won_money` accumulator
fed to every `one_bet` call is the session's initial `0`). -/
theorem fixedLoop_lastWin (sim : CasinoSimulator) :
    ∀ (n : Nat) (s : List Color) (current bet lastBet : ℚ) (lastColor : Option Color)
      (current2 bet2 lastBet2 : ℚ) (s2 : List Color),
      (lastColor = some sim.chosen_color → current = sim.start_money + lastBet) →
      fixedLoop sim 0 n current bet lastBet lastColor s
        = .done current2 bet2 lastBet2 (some sim.chosen_color) s2 →
      current2 = sim.start_money + lastBet2 := by
  intro n
  induction n with
  | zero =>
    intro s current bet lastBet lastColor current2 bet2 lastBet2 s2 hinv h
    simp only [fixedLoop, FixedOut.done.injEq] at h
    obtain ⟨rfl, rfl, rfl, hlc, rfl⟩ := h
    exact hinv hlc
  | succ n ih =>
    intro s
    cases s with
    | nil =>
      intro current bet lastBet lastColor current2 bet2 lastBet2 s2 hinv h
      simp [fixedLoop] at h
    | cons c s =>
      intro current bet lastBet lastColor current2 bet2 lastBet2 s2 hinv h
      rw [fixedLoop] at h
      by_cases hlt : (sim.one_bet c 0 bet).1 < 0
      · simp [hlt] at h
      · simp only [hlt, if_false] at h
        refine ih s _ _ bet (some c) current2 bet2 lastBet2 s2 ?_ h
        intro hc
        have hcc : c = sim.chosen_color := Option.some.inj hc
        rw [one_bet_win sim hcc]
        rw [zero_add]

/-- If the play-till-win loop is entered on a losing colour and returns,
its result is `start_money` plus the stake of the winning round. -/
theorem extLoop_winBet (sim : CasinoSimulator) :
    ∀ (s : List Color) (color : Color) (current bet wb m w : ℚ) (s2 : List Color),
      color ≠ sim.chosen_color →
      extLoop sim 0 s color current bet wb = some (m, w, s2) →
      m = sim.start_money + w := by
  intro s
  induction s with
  | nil =>
    intro color current bet wb m w s2 hcolor h
    rw [extLoop] at h
    simp [hcolor] at h
  | cons c s ih =>
    intro color current bet wb m w s2 hcolor h
    rw [extLoop] at h
    simp only [hcolor, if_false] at h
    by_cases hcc : c = sim.chosen_color
    · rw [extLoop.eq_def] at h
      simp only [hcc, if_true, Option.some.injEq, Prod.mk.injEq] at h
      obtain ⟨h1, h2, h3⟩ := h
      rw [← h1, ← h2, one_bet_win sim rfl, zero_add]
    · exact ih c _ _ bet m w s2 hcc h

/-- Claim C5: a session that ends on a winning round returns exactly
`start_money + (stake of that winning round)` — earlier rounds contribute
nothing, because every `one_bet` call receives the initial `won_money = 0`.
Stated for both exits: a fixed phase ending on the chosen colour (where the
session then returns the fixed loop's bankroll), and a play-till-win phase
entered on a loss. -/
theorem session_lastWin_bankroll (sim : CasinoSimulator) :
    (∀ (play_till_win : Bool) (s : List Color) (current bet lastBet : ℚ)
        (s1 : List Color),
      fixedLoop sim 0 sim.n_games sim.start_money sim.first_game_money
          sim.first_game_money none s
        = .done current bet lastBet (some sim.chosen_color) s1 →
      current = sim.start_money + lastBet ∧
      single_game_simulation sim play_till_win s
        = .ok (sim.start_money + lastBet, s1)) ∧
    (∀ (s : List Color) (color : Color) (current bet wb m w : ℚ) (s2 : List Color),
      color ≠ sim.chosen_color →
      extLoop sim 0 s color current bet wb = some (m, w, s2) →
      m = sim.start_money + w) := by
  constructor
  · intro play_till_win s current bet lastBet s1 hfix
    have hcur : current = sim.start_money + lastBet :=
      fixedLoop_lastWin sim sim.n_games s sim.start_money sim.first_game_money
        sim.first_game_money none current bet lastBet s1 (by simp) hfix
    refine ⟨hcur, ?_⟩
    rw [single_game_of_done sim play_till_win s current bet lastBet
      sim.chosen_color s1 hfix]
    rw [if_neg (by simp)]
    rw [hcur]
  · intro s color current bet wb m w s2 hcolor h
    exact extLoop_winBet sim s color current bet wb m w s2 hcolor h

/-- Witness for `session_lastWin_bankroll`: a one-round winning session
returns `1000 + 20`, and a play-till-win exit after one more loss returns
`1000 + 40` (the winning round's stake). -/
theorem session_lastWin_bankroll_witness :
    ((1020 : ℚ) = 1000 + 20 ∧
      single_game_simulation simW true [.black] = .ok (1000 + 20, [])) ∧
    (1040 : ℚ) = 1000 + 40 :=
  ⟨(session_lastWin_bankroll simW).1 true [.black] 1020 20 20 []
      (by norm_num [fixedLoop, CasinoSimulator.one_bet, simW, black_eq_red]),
    (session_lastWin_bankroll simW).2 [.black] .red 980 40 20 1040 40 []
      (by simp [simW])
      (by norm_num [extLoop, CasinoSimulator.one_bet, simW, red_eq_black, black_eq_red])⟩

/-- Claim C3 counterexample: with `sim3` (start 30, first stake 20) and
stream `[red, red, black]`, the extension phase processes `red` with stake
40, producing the negative bankroll `-10`, yet the loop continues and the
session returns `110`, not `0`: no ruin check is applied in the
play-till-win loop. -/
theorem extension_ignores_ruin_cex :
    (sim3.one_bet .red 0 40).1 < 0 ∧
    extLoop sim3 0 [.red, .black] .red 10 40 20 = some (110, 80, []) ∧
    single_game_simulation sim3 true [.red, .red, .black] = .ok (110, []) ∧
    (110 : ℚ) ≠ 0 := by
  refine ⟨?_, ?_, ?_, by norm_num⟩
  · norm_num [CasinoSimulator.one_bet, sim3, red_eq_black]
  · norm_num [extLoop, CasinoSimulator.one_bet, sim3, red_eq_black, black_eq_red]
  · norm_num [single_game_simulation, fixedLoop, extLoop, CasinoSimulator.one_bet,
      sim3, red_eq_black, black_eq_red]

/-- Claim C3 amended: the extension (play-till-win) phase applies no ruin
check at all — every extension round unconditionally continues the loop
after the bet, whatever the resulting bankroll, and the loop can only
return after an outcome equal to `chosen_color` occurs (or immediately, if
entered on a win). -/
theorem extLoop_no_ruin_check (sim : CasinoSimulator) :
    (∀ (c : Color) (rest : List Color) (color : Color) (current bet wb : ℚ),
      color ≠ sim.chosen_color →
      extLoop sim 0 (c :: rest) color current bet wb =
        extLoop sim 0 rest c (sim.one_bet c 0 bet).1 (sim.one_bet c 0 bet).2 bet) ∧
    (∀ (s : List Color) (color : Color) (current bet wb m w : ℚ) (s2 : List Color),
      extLoop sim 0 s color current bet wb = some (m, w, s2) →
      color = sim.chosen_color ∨ sim.chosen_color ∈ s) := by
  constructor
  · intro c rest color current bet wb hcolor
    rw [extLoop]
    simp [hcolor]
  · intro s
    induction s with
    | nil =>
      intro color current bet wb m w s2 h
      by_cases hc : color = sim.chosen_color
      · exact Or.inl hc
      · rw [extLoop] at h
        simp [hc] at h
    | cons c s ih =>
      intro color current bet wb m w s2 h
      by_cases hc : color = sim.chosen_color
      · exact Or.inl hc
      · rw [extLoop] at h
        simp only [hc, if_false] at h
        rcases ih c _ _ _ _ _ _ h with hcc | hmem
        · refine Or.inr ?_
          rw [← hcc]
          exact List.mem_cons_self c s
        · exact Or.inr (List.mem_cons_of_mem c hmem)

/-- Witness for `extLoop_no_ruin_check`: the extension step on `red` with
stake 40 continues into bankroll `-10`, and the returning run contains the
chosen colour in its stream. -/
theorem extLoop_no_ruin_check_witness :
    extLoop sim3 0 [.red, .black] .red 10 40 20 =
      extLoop sim3 0 [.black] .red (sim3.one_bet .red 0 40).1
        (sim3.one_bet .red 0 40).2 40 ∧
    (Color.red = sim3.chosen_color ∨ sim3.chosen_color ∈ [Color.red, Color.black]) :=
  ⟨(extLoop_no_ruin_check sim3).1 .red [.black] .red 10 40 20 (by simp [sim3]),
    (extLoop_no_ruin_check sim3).2 [.red, .black] .red 10 40 20 110 80 []
      (by norm_num [extLoop, CasinoSimulator.one_bet, sim3, red_eq_black, black_eq_red])⟩

/-- `runSessions` produces one raw result per gamer, in session order: the
`i`-th entry is the result of running a session from the stream state left
by the first `i` sessions. -/
theorem runSessions_spec (sim : CasinoSimulator) (play_till_win : Bool) :
    ∀ (n : Nat) (s : List Color) (l : List ℚ) (s1 : List Color),
      runSessions sim play_till_win n s = .ok (l, s1) →
      l.length = n ∧
      ∀ i, i < n → ∃ (si s2 : List Color) (m : ℚ),
        streamAfter sim play_till_win i s = .ok si ∧
        single_game_simulation sim play_till_win si = .ok (m, s2) ∧
        l[i]? = some m := by
  intro n
  induction n with
  | zero =>
    intro s l s1 h
    simp only [runSessions, Except.ok.injEq, Prod.mk.injEq] at h
    obtain ⟨rfl, rfl⟩ := h
    exact ⟨rfl, fun i hi => absurd hi (by omega)⟩
  | succ n ih =>
    intro s l s1 h
    rw [runSessions] at h
    cases hsg : single_game_simulation sim play_till_win s with
    | error e =>
      rw [hsg] at h
      simp at h
    | ok t =>
      obtain ⟨m, s3⟩ := t
      rw [hsg] at h
      dsimp only at h
      cases hrs : runSessions sim play_till_win n s3 with
      | error e =>
        rw [hrs] at h
        simp at h
      | ok t2 =>
        obtain ⟨l2, s4⟩ := t2
        rw [hrs] at h
        simp only [Except.ok.injEq, Prod.mk.injEq] at h
        obtain ⟨rfl, rfl⟩ := h
        obtain ⟨hlen, hidx⟩ := ih s3 l2 s4 hrs
        refine ⟨by simp [hlen], ?_⟩
        intro i hi
        cases i with
        | zero => exact ⟨s, s3, m, rfl, hsg, by simp⟩
        | succ i =>
          obtain ⟨si, s5, m2, h1, h2, h3⟩ := hidx i (by omega)
          refine ⟨si, s5, m2, ?_, h2, by simpa using h3⟩
          rw [streamAfter, hsg]
          exact h1

/-- Claim C8: for every gamer count `n`, `game_simulation` returns exactly
`n` entries, the `i`-th being the `i`-th session's final bankroll minus
`start_money`; and (for `n ≥ 1`) `loose_chance` from the same stream state
equals exactly (number of entries `< 0`) / `n`. -/
theorem game_simulation_spec (sim : CasinoSimulator) (n_gamers : Nat)
    (play_till_win : Bool) (s : List Color) :
    ∀ l s1, game_simulation sim n_gamers play_till_win s = .ok (l, s1) →
      l.length = n_gamers ∧
      (∀ i, i < n_gamers → ∃ (si s2 : List Color) (m : ℚ),
        streamAfter sim play_till_win i s = .ok si ∧
        single_game_simulation sim play_till_win si = .ok (m, s2) ∧
        l[i]? = some (m - sim.start_money)) ∧
      (1 ≤ n_gamers →
        loose_chance sim n_gamers play_till_win s
          = .ok (((l.filter (fun x => x < 0)).length : ℚ) / (n_gamers : ℚ), s1)) := by
  intro l s1 h
  simp only [game_simulation] at h
  cases hrs : runSessions sim play_till_win n_gamers s with
  | error e =>
    rw [hrs] at h
    simp at h
  | ok t =>
    obtain ⟨raw, s2⟩ := t
    rw [hrs] at h
    simp only [Except.ok.injEq, Prod.mk.injEq] at h
    obtain ⟨rfl, rfl⟩ := h
    obtain ⟨hlen, hidx⟩ := runSessions_spec sim play_till_win n_gamers s raw s2 hrs
    refine ⟨by simp [hlen], ?_, ?_⟩
    · intro i hi
      obtain ⟨si, s3, m, h1, h2, h3⟩ := hidx i hi
      refine ⟨si, s3, m, h1, h2, ?_⟩
      rw [List.getElem?_map, h3]
      rfl
    · intro hn
      have hne : (raw.map (fun x => x - sim.start_money)).length ≠ 0 := by
        simp [hlen]
        omega
      simp only [loose_chance, game_simulation, hrs, if_neg hne]
      rw [List.length_map, hlen]

/-- Witness for `game_simulation_spec`: one gamer on the walkthrough
configuration with an all-black stream yields the single net outcome `20`,
and a loss chance of `0/1`. -/
theorem game_simulation_spec_witness :
    ([(20 : ℚ)].length = 1) ∧
    (1 ≤ 1 →
      loose_chance sim1 1 true [.black, .black, .black, .black]
        = .ok ((((([(20 : ℚ)]).filter (fun x => x < 0)).length : ℚ) / ((1 : Nat) : ℚ)),
            [])) := by
  have h := game_simulation_spec sim1 1 true [.black, .black, .black, .black]
    [20] []
    (by norm_num [game_simulation, runSessions, single_game_simulation, fixedLoop,
      extLoop, CasinoSimulator.one_bet, sim1, red_eq_black, black_eq_red])
  exact ⟨h.1, h.2.2⟩

/-- The scenario loop: every produced row's `loosers_perc` comes from a
second, independent `game_simulation` run with `play_till_win = true`,
consuming the stream left over after the row's own `outcomes` run. -/
theorem fullSimRows_loosers (n_gamers : Nat) (chosen : Color)
    (start rate : ℚ) (play_till_win : Bool) :
    ∀ (opts : List (Nat × ℚ)) (s : List Color) (rows : List ScenRow)
      (s1 : List Color),
      fullSimRows n_gamers chosen start rate play_till_win opts s = .ok (rows, s1) →
      ∀ row ∈ rows, ∃ (sa sb sc : List Color) (l2 : List ℚ),
        game_simulation ⟨chosen, row.n_games, start, rate, row.first_game_money⟩
            n_gamers play_till_win sa = .ok (row.outcomes, sb) ∧
        game_simulation ⟨chosen, row.n_games, start, rate, row.first_game_money⟩
            n_gamers true sb = .ok (l2, sc) ∧
        l2.length ≠ 0 ∧
        row.loosers_perc
          = ((l2.filter (fun x => x < 0)).length : ℚ) / (l2.length : ℚ) := by
  intro opts
  induction opts with
  | nil =>
    intro s rows s1 h
    simp only [fullSimRows, Except.ok.injEq, Prod.mk.injEq] at h
    obtain ⟨rfl, rfl⟩ := h
    intro row hrow
    simp at hrow
  | cons p opts ih =>
    obtain ⟨n_games, first_money⟩ := p
    intro s rows s1 h
    rw [fullSimRows] at h
    simp only [CasinoSimulator.init] at h
    cases hg : game_simulation ⟨chosen, n_games, start, rate, first_money⟩
        n_gamers play_till_win s with
    | error e =>
      rw [hg] at h
      simp at h
    | ok t =>
      obtain ⟨result, sb⟩ := t
      rw [hg] at h
      dsimp only at h
      simp only [loose_chance] at h
      cases hg2 : game_simulation ⟨chosen, n_games, start, rate, first_money⟩
          n_gamers true sb with
      | error e =>
        rw [hg2] at h
        simp at h
      | ok t2 =>
        obtain ⟨l2, sc⟩ := t2
        rw [hg2] at h
        dsimp only at h
        by_cases hlen : l2.length = 0
        · rw [if_pos hlen] at h
          simp at h
        · rw [if_neg hlen] at h
          dsimp only at h
          cases hrest : fullSimRows n_gamers chosen start rate play_till_win opts sc with
          | error e =>
            rw [hrest] at h
            simp at h
          | ok t3 =>
            obtain ⟨rows2, s3⟩ := t3
            rw [hrest] at h
            simp only [Except.ok.injEq, Prod.mk.injEq] at h
            obtain ⟨rfl, rfl⟩ := h
            intro row hrow
            rcases List.mem_cons.mp hrow with rfl | hmem
            · exact ⟨s, sb, sc, l2, hg, hg2, hlen, rfl⟩
            · exact ih sc rows2 s3 hrest row hmem

/-- Claim C6 counterexample: with one scenario, one gamer, start money 10,
first stake 20, sweep `play_till_win = false` and global stream
`[black, red]`, the scenario's own outcomes are `[20]` (no entry below the
starting bankroll, fraction `0`), yet the reported `loosers_perc` is `1`,
computed from a second simulation that consumed the fresh `red` draw under
`play_till_win = True`. -/
theorem loosers_perc_not_own_outcomes_cex :
    full_simulation 1 .black [1] [20] 10 2 false [.black, .red]
      = .ok ([⟨1, 20, [20], 1⟩], []) ∧
    ((([(20 : ℚ)]).filter (fun x => x < 0)).length : ℚ)
        / (([(20 : ℚ)]).length : ℚ) = 0 ∧
    (1 : ℚ) ≠ 0 := by
  refine ⟨?_, by norm_num, by norm_num⟩
  norm_num [full_simulation, fullSimRows, optProduct, CasinoSimulator.init,
    game_simulation, runSessions, loose_chance, single_game_simulation, fixedLoop,
    extLoop, CasinoSimulator.one_bet, List.insertionSort, red_eq_black, black_eq_red]

/-- Claim C6 amended: every scenario row's reported `loosers_perc` is the
loss fraction of a second, independent population simulation run with
`play_till_win = True` (regardless of the sweep's setting) on fresh stream
draws — equal to (count of that fresh sample's entries `< 0`) divided by the
fresh sample's size — rather than the fraction of the row's own `outcomes`
below the starting bankroll. -/
theorem full_simulation_loosers_independent (n_gamers : Nat) (chosen : Color)
    (n_games_opt : List Nat) (first_game_money_opt : List ℚ) (start rate : ℚ)
    (play_till_win : Bool) (s : List Color) (rows : List ScenRow)
    (s1 : List Color)
    (h : full_simulation n_gamers chosen n_games_opt first_game_money_opt
      start rate play_till_win s = .ok (rows, s1)) :
    ∀ row ∈ rows, ∃ (sa sb sc : List Color) (l2 : List ℚ),
      game_simulation ⟨chosen, row.n_games, start, rate, row.first_game_money⟩
          n_gamers play_till_win sa = .ok (row.outcomes, sb) ∧
      game_simulation ⟨chosen, row.n_games, start, rate, row.first_game_money⟩
          n_gamers true sb = .ok (l2, sc) ∧
      l2.length ≠ 0 ∧
      row.loosers_perc
        = ((l2.filter (fun x => x < 0)).length : ℚ) / (l2.length : ℚ) := by
  intro row hrow
  simp only [full_simulation] at h
  cases hfr : fullSimRows n_gamers chosen start rate play_till_win
      (optProduct n_games_opt first_game_money_opt) s with
  | error e =>
    rw [hfr] at h
    simp at h
  | ok t =>
    obtain ⟨rows0, s2⟩ := t
    rw [hfr] at h
    simp only [Except.ok.injEq, Prod.mk.injEq] at h
    obtain ⟨rfl, rfl⟩ := h
    have hmem : row ∈ rows0 := (List.perm_insertionSort rowLe rows0).subset hrow
    exact fullSimRows_loosers n_gamers chosen start rate play_till_win
      (optProduct n_games_opt first_game_money_opt) s rows0 s2 hfr row hmem

/-- Witness for `full_simulation_loosers_independent` on the two-draw
stream `[black, red]`: the reported loss chance 1 comes from the fresh
`red` sample, not from the scenario's own outcomes `[20]`. -/
theorem full_simulation_loosers_independent_witness :
    ∃ (sa sb sc : List Color) (l2 : List ℚ),
      game_simulation ⟨.black, 1, 10, 2, 20⟩ 1 false sa = .ok ([20], sb) ∧
      game_simulation ⟨.black, 1, 10, 2, 20⟩ 1 true sb = .ok (l2, sc) ∧
      l2.length ≠ 0 ∧
      (1 : ℚ) = ((l2.filter (fun x => x < 0)).length : ℚ) / (l2.length : ℚ) :=
  full_simulation_loosers_independent 1 .black [1] [20] 10 2 false [.black, .red]
    [⟨1, 20, [20], 1⟩] []
    (by norm_num [full_simulation, fullSimRows, optProduct, CasinoSimulator.init,
      game_simulation, runSessions, loose_chance, single_game_simulation, fixedLoop,
      extLoop, CasinoSimulator.one_bet, List.insertionSort, red_eq_black, black_eq_red])
    ⟨1, 20, [20], 1⟩ (by simp)

/-- Claim C9: the statistics table produced by `full_simulation` is ordered
by ascending median (the `50%` column) of each scenario's outcomes. -/
theorem full_simulation_sorted_by_median (n_gamers : Nat) (chosen : Color)
    (n_games_opt : List Nat) (first_game_money_opt : List ℚ) (start rate : ℚ)
    (play_till_win : Bool) (s : List Color) (rows : List ScenRow)
    (s1 : List Color)
    (h : full_simulation n_gamers chosen n_games_opt first_game_money_opt
      start rate play_till_win s = .ok (rows, s1)) :
    List.Sorted (fun a b => median a.outcomes ≤ median b.outcomes) rows := by
  simp only [full_simulation] at h
  cases hfr : fullSimRows n_gamers chosen start rate play_till_win
      (optProduct n_games_opt first_game_money_opt) s with
  | error e =>
    rw [hfr] at h
    simp at h
  | ok t =>
    obtain ⟨rows0, s2⟩ := t
    rw [hfr] at h
    simp only [Except.ok.injEq, Prod.mk.injEq] at h
    obtain ⟨rfl, rfl⟩ := h
    exact List.sorted_insertionSort rowLe rows0

/-- Witness for `full_simulation_sorted_by_median`: a two-scenario sweep
produces rows with medians 20 and 50, in ascending order. -/
theorem full_simulation_sorted_by_median_witness :
    List.Sorted (fun a b => median a.outcomes ≤ median b.outcomes)
      [(⟨1, 20, [20], 0⟩ : ScenRow), ⟨1, 50, [50], 0⟩] :=
  full_simulation_sorted_by_median 1 .black [1] [20, 50] 1000 2 false
    [.black, .black, .black, .black] [⟨1, 20, [20], 0⟩, ⟨1, 50, [50], 0⟩] []
    (by norm_num [full_simulation, fullSimRows, optProduct, CasinoSimulator.init,
      game_simulation, runSessions, loose_chance, single_game_simulation, fixedLoop,
      extLoop, CasinoSimulator.one_bet, List.insertionSort, List.orderedInsert,
      rowLe, median, red_eq_black, black_eq_red])
